import Mathlib

/-!
Verification development for the outline_lib Go client library.

The embedding follows the source faithfully:
* the HTTP layer (outline.go): `MakeRequest` over an abstract per-request
  outcome, and the shared `sendPutRequest` / `sendDeleteRequest` helpers;
* the cache layer (the second source file): `Client` state with an
  access-key cache (a Go slice, sentinel is length zero) and a
  transferred-data cache (a Go map, sentinel is the nil map, modelled as
  `Option`), with explicit state passing and a trace of outgoing calls.
-/

/-- Mirrors the Go struct `AccessKey` (outline.go lines 15-22). -/
structure AccessKey where
  id : String
  name : String
  password : String
  port : Int
  method : String
  accessUrl : String
deriving Repr, DecidableEq

/-- An HTTP response as far as this library inspects it: the status code and
an abstract body. `MakeRequest` returns the raw response without reading or
closing the body. -/
structure HttpResponse where
  statusCode : Nat
  body : String
deriving Repr, DecidableEq

/-- The error taxonomy of the request executor (outline.go lines 86-102):
request construction failure, transport failure, and a non-success status
which carries the numeric status code. -/
inductive RequestError where
  | createFailed
  | executeFailed
  | statusCode (code : Nat)
deriving Repr, DecidableEq

/-- The outcome of one attempted HTTP round trip, before the status check:
`http.NewRequestWithContext` may fail, `httpClient.Do` may fail, or a
response with some status code comes back. -/
inductive HttpAttempt where
  | createError
  | transportError
  | response (resp : HttpResponse)
deriving Repr, DecidableEq

/-- Embedding of `Client.MakeRequest` (outline.go lines 83-105): construction
failure and transport failure are returned as errors; a response with status
code >= 400 is turned into an error carrying the code and the response is
not returned; any other response is returned as is. -/
def MakeRequest : HttpAttempt → Except RequestError HttpResponse
  | HttpAttempt.createError => Except.error RequestError.createFailed
  | HttpAttempt.transportError => Except.error RequestError.executeFailed
  | HttpAttempt.response resp =>
      if resp.statusCode ≥ 400 then
        Except.error (RequestError.statusCode resp.statusCode)
      else
        Except.ok resp

/-- Error type for the endpoint helpers: `json.Marshal` failure in
`sendPutRequest`, or a `MakeRequest` failure wrapped by the helper. -/
inductive Err where
  | marshalFailed
  | requestFailed (e : RequestError)
  | decodeFailed
deriving Repr, DecidableEq

/-- Embedding of `Client.sendPutRequest` (outline.go lines 244-259): marshal
the body (failure is an error), send the PUT request via `MakeRequest`
(failure is an error), otherwise report whether the status is exactly 200
(`http.StatusOK`), with a nil error. -/
def sendPutRequest (marshalOk : Bool) (attempt : HttpAttempt) : Bool × Option Err :=
  if marshalOk = false then
    (false, some Err.marshalFailed)
  else
    match MakeRequest attempt with
    | Except.error e => (false, some (Err.requestFailed e))
    | Except.ok resp => (resp.statusCode == 200, none)

/-- Embedding of `Client.sendDeleteRequest` (outline.go lines 261-271): send
the DELETE request via `MakeRequest` (failure is an error), otherwise report
whether the status is exactly 204 (`http.StatusNoContent`), with a nil
error. -/
def sendDeleteRequest (attempt : HttpAttempt) : Bool × Option Err :=
  match MakeRequest attempt with
  | Except.error e => (false, some (Err.requestFailed e))
  | Except.ok resp => (resp.statusCode == 204, none)

/-- Claim C1: for every response received by `MakeRequest`, a 2xx status
returns the raw response with no error; a status >= 400 fails with an error
carrying the numeric status code and returns no usable response; request
construction failures and transport failures also yield errors. -/
theorem makeRequest_status_contract (a : HttpAttempt) :
    (∀ resp, a = HttpAttempt.response resp → 200 ≤ resp.statusCode →
        resp.statusCode < 300 → MakeRequest a = Except.ok resp) ∧
    (∀ resp, a = HttpAttempt.response resp → 400 ≤ resp.statusCode →
        MakeRequest a = Except.error (RequestError.statusCode resp.statusCode)) ∧
    (a = HttpAttempt.createError →
        MakeRequest a = Except.error RequestError.createFailed) ∧
    (a = HttpAttempt.transportError →
        MakeRequest a = Except.error RequestError.executeFailed) := by
  refine ⟨?_, ?_, ?_, ?_⟩
  · intro resp ha _h2 h3
    subst ha
    simp only [MakeRequest]
    rw [if_neg (by omega)]
  · intro resp ha h4
    subst ha
    simp only [MakeRequest]
    rw [if_pos (by omega)]
  · intro ha; subst ha; rfl
  · intro ha; subst ha; rfl

/-- Witness for C1 at concrete inputs: status 204 is returned raw, status 404
fails carrying 404, and a construction failure is an error. -/
theorem makeRequest_status_contract_witness :
    MakeRequest (HttpAttempt.response ⟨204, "ok-body"⟩) = Except.ok ⟨204, "ok-body"⟩ ∧
    MakeRequest (HttpAttempt.response ⟨404, ""⟩) =
      Except.error (RequestError.statusCode 404) ∧
    MakeRequest HttpAttempt.createError = Except.error RequestError.createFailed :=
  ⟨(makeRequest_status_contract (HttpAttempt.response ⟨204, "ok-body"⟩)).1 _ rfl
      (by decide) (by decide),
   (makeRequest_status_contract (HttpAttempt.response ⟨404, ""⟩)).2.1 _ rfl (by decide),
   (makeRequest_status_contract HttpAttempt.createError).2.2.1 rfl⟩

/-- Counterexample to C4 as stated: at status 400 (any status >= 400),
`sendDeleteRequest` does not return false without error; it returns an
error produced by the request executor. -/
theorem sendDeleteRequest_error_status_cex :
    sendDeleteRequest (HttpAttempt.response ⟨400, ""⟩) ≠ (false, none) ∧
    sendDeleteRequest (HttpAttempt.response ⟨400, ""⟩) =
      (false, some (Err.requestFailed (RequestError.statusCode 400))) := by
  constructor
  · decide
  · decide

/-- Claim C4, amended: `sendDeleteRequest` returns true (with no error)
exactly when the response status is 204; any other status below 400 returns
false without error; a status >= 400 makes the request executor fail, so the
method returns false together with an error carrying the status code. -/
theorem sendDeleteRequest_status_contract (resp : HttpResponse) :
    (sendDeleteRequest (HttpAttempt.response resp) = (true, none) ↔
        resp.statusCode = 204) ∧
    (resp.statusCode ≠ 204 → resp.statusCode < 400 →
        sendDeleteRequest (HttpAttempt.response resp) = (false, none)) ∧
    (400 ≤ resp.statusCode →
        sendDeleteRequest (HttpAttempt.response resp) =
          (false, some (Err.requestFailed (RequestError.statusCode resp.statusCode)))) := by
  refine ⟨?_, ?_, ?_⟩
  · constructor
    · intro h
      by_cases h4 : resp.statusCode ≥ 400
      · simp [sendDeleteRequest, MakeRequest, if_pos h4] at h
      · simp [sendDeleteRequest, MakeRequest, if_neg h4] at h
        exact h
    · intro h
      have h4 : ¬ resp.statusCode ≥ 400 := by omega
      simp [sendDeleteRequest, MakeRequest, if_neg h4, h]
  · intro hne hlt
    have h4 : ¬ resp.statusCode ≥ 400 := by omega
    simp [sendDeleteRequest, MakeRequest, if_neg h4, hne]
  · intro h4
    simp [sendDeleteRequest, MakeRequest, if_pos h4]

/-- Witness for the amended C4 at concrete inputs: status 204 gives true,
status 200 gives false with no error, status 500 gives false with an
error. -/
theorem sendDeleteRequest_status_contract_witness :
    sendDeleteRequest (HttpAttempt.response ⟨204, ""⟩) = (true, none) ∧
    sendDeleteRequest (HttpAttempt.response ⟨200, ""⟩) = (false, none) ∧
    sendDeleteRequest (HttpAttempt.response ⟨500, ""⟩) =
      (false, some (Err.requestFailed (RequestError.statusCode 500))) :=
  ⟨(sendDeleteRequest_status_contract ⟨204, ""⟩).1.mpr rfl,
   (sendDeleteRequest_status_contract ⟨200, ""⟩).2.1 (by decide) (by decide),
   (sendDeleteRequest_status_contract ⟨500, ""⟩).2.2 (by decide)⟩

/-- Claim C5: with a successfully marshalled body, `sendPutRequest` returns
true (with no error) exactly when the response status is 200; any other 2xx
status is surfaced as false with no error; any status >= 400 yields false
together with an error carrying the status code. -/
theorem sendPutRequest_status_contract (resp : HttpResponse) :
    (sendPutRequest true (HttpAttempt.response resp) = (true, none) ↔
        resp.statusCode = 200) ∧
    (200 ≤ resp.statusCode → resp.statusCode < 300 → resp.statusCode ≠ 200 →
        sendPutRequest true (HttpAttempt.response resp) = (false, none)) ∧
    (400 ≤ resp.statusCode →
        sendPutRequest true (HttpAttempt.response resp) =
          (false, some (Err.requestFailed (RequestError.statusCode resp.statusCode)))) := by
  refine ⟨?_, ?_, ?_⟩
  · constructor
    · intro h
      by_cases h4 : resp.statusCode ≥ 400
      · simp [sendPutRequest, MakeRequest, if_pos h4] at h
      · simp [sendPutRequest, MakeRequest, if_neg h4] at h
        exact h
    · intro h
      have h4 : ¬ resp.statusCode ≥ 400 := by omega
      simp [sendPutRequest, MakeRequest, if_neg h4, h]
  · intro _h2 hlt hne
    have h4 : ¬ resp.statusCode ≥ 400 := by omega
    simp [sendPutRequest, MakeRequest, if_neg h4, hne]
  · intro h4
    simp [sendPutRequest, MakeRequest, if_pos h4]

/-- Witness for C5 at concrete inputs: status 200 gives true, status 201
(another 2xx) gives false with no error, status 404 gives false with an
error. -/
theorem sendPutRequest_status_contract_witness :
    sendPutRequest true (HttpAttempt.response ⟨200, ""⟩) = (true, none) ∧
    sendPutRequest true (HttpAttempt.response ⟨201, ""⟩) = (false, none) ∧
    sendPutRequest true (HttpAttempt.response ⟨404, ""⟩) =
      (false, some (Err.requestFailed (RequestError.statusCode 404))) :=
  ⟨(sendPutRequest_status_contract ⟨200, ""⟩).1.mpr rfl,
   (sendPutRequest_status_contract ⟨201, ""⟩).2.1 (by decide) (by decide) (by decide),
   (sendPutRequest_status_contract ⟨404, ""⟩).2.2 (by decide)⟩

/-- The transferred-data map `map[string]int64`, modelled as an association
list from access-key id to bytes transferred. -/
abbrev TMap := List (String × Int)

/-- The mutable cache fields of the Go `Client` (outline.go lines 28-33):
`accessKeysCache []AccessKey` (a slice; the code treats length zero as the
empty sentinel) and `transferredDataCache map[string]int64` (a map; the code
treats the nil map, here `none`, as the empty sentinel, distinct from an
empty non-nil map `some []`). -/
structure ClientState where
  accessKeysCache : List AccessKey
  transferredDataCache : Option TMap
deriving Repr, DecidableEq

/-- The remote side as seen by the cache layer: the result of
`GetListAccessKeys` (outline.go lines 198-212, a GET of /access-keys plus
JSON decode), the result of `DataTransferredAccessKey` (outline.go lines
230-241, a GET of /metrics/transfer plus JSON decode; the decoded map field
may itself be nil, hence the `Option`), and the HTTP outcome of the DELETE
request that `DeleteAccessKey id` sends to /access-keys/{id}. -/
structure Oracle where
  listAccessKeys : Except Err (List AccessKey)
  dataTransferred : Except Err (Option TMap)
  deleteAttempt : String → HttpAttempt

/-- One outgoing call of the cache layer, for call-count reasoning: a fetch
of the access-key list, a fetch of the transferred-data map, or a DELETE of
one access key. -/
inductive Call where
  | listFetch
  | transferFetch
  | deleteReq (id : String)
deriving Repr, DecidableEq

/-- The zero value of the Go `AccessKey` struct, returned by
`GetAccessKeyByID` when the id is absent. -/
def zeroAccessKey : AccessKey := ⟨"", "", "", 0, "", ""⟩

/-- The scan loop of `GetAccessKeyByID`: walk the cache sequence, return the
first key whose id matches, or the zero value when none does. -/
def scanForKey (id : String) : List AccessKey → AccessKey
  | [] => zeroAccessKey
  | k :: rest => if k.id = id then k else scanForKey id rest

/-- The scan loop of `CheckAccessKeyByID`: walk the cache sequence, return
true on the first id match, false when none matches. -/
def keyPresent (id : String) : List AccessKey → Bool
  | [] => false
  | k :: rest => if k.id = id then true else keyPresent id rest

/-- `len` of a Go map value that may be nil: nil has length zero. -/
def tmapLen : Option TMap → Nat
  | none => 0
  | some m => m.length

/-- The comma-ok map lookup `_, ok := m[id]` on a Go map value that may be
nil: presence of the id as a key, regardless of the stored value; always
false on the nil map. -/
def tmapHas (m : Option TMap) (id : String) : Bool :=
  match m with
  | none => false
  | some l => l.any (fun p => p.1 == id)

/-- Embedding of `Client.GetAccessKeyByID` (cache source lines 3-17): if the
access-key cache has length zero, fetch the full list (propagating a fetch
error with the zero-value result) and store it in the cache; then scan the
cache for the id and return the match, or the zero value with a nil error
when absent. -/
def GetAccessKeyByID (c : ClientState) (w : Oracle) (id : String) :
    (AccessKey × Option Err) × ClientState × List Call :=
  if c.accessKeysCache.length = 0 then
    match w.listAccessKeys with
    | Except.error e => ((zeroAccessKey, some e), c, [Call.listFetch])
    | Except.ok keys =>
        ((scanForKey id keys, none),
         { c with accessKeysCache := keys }, [Call.listFetch])
  else
    ((scanForKey id c.accessKeysCache, none), c, [])

/-- Embedding of `Client.CheckAccessKeyByID` (cache source lines 19-33):
same population step, then a boolean presence scan. -/
def CheckAccessKeyByID (c : ClientState) (w : Oracle) (id : String) :
    (Bool × Option Err) × ClientState × List Call :=
  if c.accessKeysCache.length = 0 then
    match w.listAccessKeys with
    | Except.error e => ((false, some e), c, [Call.listFetch])
    | Except.ok keys =>
        ((keyPresent id keys, none),
         { c with accessKeysCache := keys }, [Call.listFetch])
  else
    ((keyPresent id c.accessKeysCache, none), c, [])

/-- Embedding of `Client.GetNumberOfUsers` (cache source lines 35-44):
populate the access-key cache if its length is zero, then return its
length. -/
def GetNumberOfUsers (c : ClientState) (w : Oracle) :
    (Nat × Option Err) × ClientState × List Call :=
  if c.accessKeysCache.length = 0 then
    match w.listAccessKeys with
    | Except.error e => ((0, some e), c, [Call.listFetch])
    | Except.ok keys =>
        ((keys.length, none), { c with accessKeysCache := keys }, [Call.listFetch])
  else
    ((c.accessKeysCache.length, none), c, [])

/-- Embedding of `Client.GetNumberOfActiveUsers` (cache source lines 46-55):
fetch the transferred-data map only when the cache is the nil map (the
fetched map is stored even when it is itself nil), then return the length of
the cache. -/
def GetNumberOfActiveUsers (c : ClientState) (w : Oracle) :
    (Nat × Option Err) × ClientState × List Call :=
  match c.transferredDataCache with
  | none =>
      match w.dataTransferred with
      | Except.error e => ((0, some e), c, [Call.transferFetch])
      | Except.ok m =>
          ((tmapLen m, none),
           { c with transferredDataCache := m }, [Call.transferFetch])
  | some m => ((m.length, none), c, [])

/-- Embedding of `Client.DeleteAccessKey` (outline.go lines 214-216): one
DELETE request via `sendDeleteRequest`; the client caches are untouched. -/
def DeleteAccessKey (c : ClientState) (w : Oracle) (id : String) :
    (Bool × Option Err) × ClientState × List Call :=
  (sendDeleteRequest (w.deleteAttempt id), c, [Call.deleteReq id])

/-- The loop of `DeleteAllKeysWithOutTraffic` (cache source lines 74-81):
for each access key in order, if its id is absent from the transferred-data
map, issue a DELETE; an error aborts with (false, err), the boolean result
of the delete is discarded; when the whole list is processed, (true, nil). -/
def deleteLoop (w : Oracle) (m : Option TMap) :
    List AccessKey → (Bool × Option Err) × List Call
  | [] => ((true, none), [])
  | k :: rest =>
      if tmapHas m k.id then
        deleteLoop w m rest
      else
        match (sendDeleteRequest (w.deleteAttempt k.id)).2 with
        | some e => ((false, some e), [Call.deleteReq k.id])
        | none =>
            let r := deleteLoop w m rest
            (r.1, Call.deleteReq k.id :: r.2)

/-- The second population step and the loop of `DeleteAllKeysWithOutTraffic`
(cache source lines 66-82): populate the access-key cache if its length is
zero (propagating a fetch error as (false, err)), then run the delete
loop over the cache against the transferred-data cache. -/
def deleteStageKeys (c : ClientState) (w : Oracle) :
    (Bool × Option Err) × ClientState × List Call :=
  if c.accessKeysCache.length = 0 then
    match w.listAccessKeys with
    | Except.error e => ((false, some e), c, [Call.listFetch])
    | Except.ok keys =>
        let c2 : ClientState := { c with accessKeysCache := keys }
        let r := deleteLoop w c2.transferredDataCache c2.accessKeysCache
        (r.1, c2, Call.listFetch :: r.2)
  else
    let r := deleteLoop w c.transferredDataCache c.accessKeysCache
    (r.1, c, r.2)

/-- Embedding of `Client.DeleteAllKeysWithOutTraffic` (cache source lines
57-83): populate the transferred-data cache if it is the nil map
(propagating a fetch error as (false, err)), then populate the access-key
cache if needed, then delete every key whose id is absent from the map. -/
def DeleteAllKeysWithOutTraffic (c : ClientState) (w : Oracle) :
    (Bool × Option Err) × ClientState × List Call :=
  match c.transferredDataCache with
  | none =>
      match w.dataTransferred with
      | Except.error e => ((false, some e), c, [Call.transferFetch])
      | Except.ok m =>
          let r := deleteStageKeys { c with transferredDataCache := m } w
          (r.1, r.2.1, Call.transferFetch :: r.2.2)
  | some _ => deleteStageKeys c w

/-- The delete calls the loop issues on full success: one per access key
whose id is absent from the transferred-data map, in list order. -/
def noTrafficCalls (m : Option TMap) (keys : List AccessKey) : List Call :=
  (keys.filter (fun k => !(tmapHas m k.id))).map (fun k => Call.deleteReq k.id)

/-- Sample access key with id "a". -/
def keyA : AccessKey := ⟨"a", "", "", 0, "", ""⟩

/-- Sample access key with id "b". -/
def keyB : AccessKey := ⟨"b", "", "", 0, "", ""⟩

/-- Sample access key with id "c". -/
def keyC : AccessKey := ⟨"c", "", "", 0, "", ""⟩

/-- A client whose caches are already populated: access keys [a, b, c] and
transferred-data mapping {a: 100}. -/
def abcClient : ClientState := ⟨[keyA, keyB, keyC], some [("a", 100)]⟩

/-- A client with a populated access-key cache [{id: a}, {id: b}] and an
untouched transferred-data cache. -/
def abClient : ClientState := ⟨[keyA, keyB], none⟩

/-- A freshly constructed client: both caches at their empty sentinel. -/
def emptyClient : ClientState := ⟨[], none⟩

/-- A client whose transferred-data cache is the empty but non-nil map. -/
def emptyMapClient : ClientState := ⟨[], some []⟩

/-- A client with keys [a, b] and a transferred-data entry of zero bytes for
key a. -/
def zeroTrafficClient : ClientState := ⟨[keyA, keyB], some [("a", 0)]⟩

/-- A remote where every DELETE answers 204 and the list and metrics
endpoints answer the [a, b, c] / {a: 100} data. -/
def allNoContent : Oracle :=
  ⟨Except.ok [keyA, keyB, keyC], Except.ok (some [("a", 100)]),
   fun _ => HttpAttempt.response ⟨204, ""⟩⟩

/-- A remote where every DELETE answers 200 (a 2xx that is not 204). -/
def all200 : Oracle :=
  ⟨Except.ok [keyA, keyB, keyC], Except.ok (some [("a", 100)]),
   fun _ => HttpAttempt.response ⟨200, ""⟩⟩

/-- A remote where the DELETE of key b fails with status 500 and every other
DELETE answers 204. -/
def failOnB : Oracle :=
  ⟨Except.ok [keyA, keyB, keyC], Except.ok (some [("a", 100)]),
   fun id => if id = "b" then HttpAttempt.response ⟨500, ""⟩
             else HttpAttempt.response ⟨204, ""⟩⟩

/-- A remote whose access-key list is empty. -/
def emptyListRemote : Oracle :=
  ⟨Except.ok [], Except.ok (some []), fun _ => HttpAttempt.response ⟨204, ""⟩⟩

/-- When the id is on none of the cached keys, the scan returns the zero
value. -/
theorem scanForKey_eq_zero (id : String) (l : List AccessKey)
    (h : keyPresent id l = false) : scanForKey id l = zeroAccessKey := by
  induction l with
  | nil => rfl
  | cons k rest ih =>
    by_cases hk : k.id = id
    · simp [keyPresent, hk] at h
    · simp [keyPresent, hk] at h
      simp [scanForKey, hk]
      exact ih h

/-- When every delete of a no-traffic key succeeds, the loop runs to the end,
issues exactly the no-traffic delete calls in order, and reports success. -/
theorem deleteLoop_success (w : Oracle) (m : Option TMap) (keys : List AccessKey)
    (h : ∀ k, k ∈ keys → tmapHas m k.id = false →
      (sendDeleteRequest (w.deleteAttempt k.id)).2 = none) :
    deleteLoop w m keys = ((true, none), noTrafficCalls m keys) := by
  induction keys with
  | nil => rfl
  | cons k rest ih =>
    have ihr := ih (fun x hx hfx => h x (List.mem_cons_of_mem k hx) hfx)
    by_cases hk : tmapHas m k.id = true
    · simp [deleteLoop, hk, ihr, noTrafficCalls]
    · have hk2 : tmapHas m k.id = false := Bool.eq_false_iff.mpr hk
      have hd := h k (List.mem_cons_self k rest) hk2
      simp [deleteLoop, hk2, hd, ihr, noTrafficCalls]

/-- The first failing delete aborts the loop: the calls issued are exactly
the no-traffic deletes before the failing key plus the failing delete
itself, the error is returned, and nothing after the failing key is
attempted. -/
theorem deleteLoop_abort (w : Oracle) (m : Option TMap) (pre : List AccessKey)
    (k : AccessKey) (post : List AccessKey) (e : Err)
    (hpre : ∀ x, x ∈ pre → tmapHas m x.id = false →
      (sendDeleteRequest (w.deleteAttempt x.id)).2 = none)
    (hk : tmapHas m k.id = false)
    (he : (sendDeleteRequest (w.deleteAttempt k.id)).2 = some e) :
    deleteLoop w m (pre ++ k :: post) =
      ((false, some e), noTrafficCalls m pre ++ [Call.deleteReq k.id]) := by
  induction pre with
  | nil => simp [deleteLoop, hk, he, noTrafficCalls]
  | cons x rest ih =>
    have ihr := ih (fun y hy => hpre y (List.mem_cons_of_mem x hy))
    by_cases hx : tmapHas m x.id = true
    · simp [deleteLoop, hx, ihr, noTrafficCalls]
    · have hx2 : tmapHas m x.id = false := Bool.eq_false_iff.mpr hx
      have hd := hpre x (List.mem_cons_self x rest) hx2
      simp [deleteLoop, hx2, hd, ihr, noTrafficCalls]

/-- The loop never issues a delete for an id that is present in the
transferred-data map, whatever the stored value. -/
theorem deleteLoop_skips_present (w : Oracle) (m : Option TMap) (id : String)
    (keys : List AccessKey) (h : tmapHas m id = true) :
    Call.deleteReq id ∉ (deleteLoop w m keys).2 := by
  induction keys with
  | nil => simp [deleteLoop]
  | cons k rest ih =>
    by_cases hk : tmapHas m k.id = true
    · simpa [deleteLoop, hk] using ih
    · have hk2 : tmapHas m k.id = false := Bool.eq_false_iff.mpr hk
      have hne : id ≠ k.id := by
        intro hEq
        rw [hEq] at h
        simp [h] at hk2
      cases hd : (sendDeleteRequest (w.deleteAttempt k.id)).2 with
      | some e => simp [deleteLoop, hk2, hd, hne]
      | none => simp [deleteLoop, hk2, hd, hne, ih]

/-- With a populated access-key cache, the key-population stage is a no-op
on the state. -/
theorem deleteStageKeys_state_eq (c : ClientState) (w : Oracle)
    (hk : c.accessKeysCache ≠ []) : (deleteStageKeys c w).2.1 = c := by
  have hlen : ¬ c.accessKeysCache.length = 0 := by
    simpa [List.length_eq_zero] using hk
  simp [deleteStageKeys, hlen]

/-- The key-population stage never writes the transferred-data cache. -/
theorem deleteStageKeys_preserves_transferred (c : ClientState) (w : Oracle) :
    (deleteStageKeys c w).2.1.transferredDataCache = c.transferredDataCache := by
  by_cases hlen : c.accessKeysCache.length = 0
  · cases hd : w.listAccessKeys with
    | error e => simp [deleteStageKeys, hlen, hd]
    | ok keys => simp [deleteStageKeys, hlen, hd]
  · simp [deleteStageKeys, hlen]

/-- Claim C2: with both caches populated, DeleteAllKeysWithOutTraffic runs
the delete loop over the cached keys against the cached map and leaves the
state unchanged; the loop issues exactly one delete call for every key
whose id is absent from the map and none for a present id; when every such
delete succeeds the method reports (true, nil); the first delete failure
aborts the iteration, returns that error, and no delete is attempted for
any later key; when both caches start at their empty sentinel and both
fetches succeed, the caches are populated first and the same loop runs over
the fetched data. -/
theorem deleteAllKeysWithOutTraffic_contract :
    (∀ c : ClientState, ∀ w : Oracle, ∀ m : TMap,
        c.transferredDataCache = some m → c.accessKeysCache ≠ [] →
        DeleteAllKeysWithOutTraffic c w =
          ((deleteLoop w (some m) c.accessKeysCache).1, c,
            (deleteLoop w (some m) c.accessKeysCache).2)) ∧
    (∀ w : Oracle, ∀ m : Option TMap, ∀ keys : List AccessKey,
        (∀ k, k ∈ keys → tmapHas m k.id = false →
          (sendDeleteRequest (w.deleteAttempt k.id)).2 = none) →
        deleteLoop w m keys = ((true, none), noTrafficCalls m keys)) ∧
    (∀ w : Oracle, ∀ m : Option TMap, ∀ pre : List AccessKey, ∀ k : AccessKey,
        ∀ post : List AccessKey, ∀ e : Err,
        (∀ x, x ∈ pre → tmapHas m x.id = false →
          (sendDeleteRequest (w.deleteAttempt x.id)).2 = none) →
        tmapHas m k.id = false →
        (sendDeleteRequest (w.deleteAttempt k.id)).2 = some e →
        deleteLoop w m (pre ++ k :: post) =
          ((false, some e), noTrafficCalls m pre ++ [Call.deleteReq k.id])) ∧
    (∀ c : ClientState, ∀ w : Oracle, ∀ m : Option TMap, ∀ keys : List AccessKey,
        c.transferredDataCache = none → c.accessKeysCache = [] →
        w.dataTransferred = Except.ok m → w.listAccessKeys = Except.ok keys →
        DeleteAllKeysWithOutTraffic c w =
          ((deleteLoop w m keys).1, ⟨keys, m⟩,
            Call.transferFetch :: Call.listFetch :: (deleteLoop w m keys).2)) := by
  refine ⟨?_, deleteLoop_success, deleteLoop_abort, ?_⟩
  · intro c w m ht hk
    have hlen : ¬ c.accessKeysCache.length = 0 := by
      simpa [List.length_eq_zero] using hk
    simp [DeleteAllKeysWithOutTraffic, ht, deleteStageKeys, hlen]
  · intro c w m keys ht h0 hd hw
    simp [DeleteAllKeysWithOutTraffic, ht, hd, deleteStageKeys, h0, hw]

/-- Witness for C2 on the concrete scenario of the claim: keys [a, b, c],
mapping {a: 100}; with every DELETE answering 204, exactly the deletes of b
and c are issued and the call reports (true, nil); when the DELETE of b
fails with status 500, that error is returned and no delete of c is
attempted. -/
theorem deleteAllKeysWithOutTraffic_contract_witness :
    DeleteAllKeysWithOutTraffic abcClient allNoContent =
      ((true, none), abcClient, [Call.deleteReq "b", Call.deleteReq "c"]) ∧
    DeleteAllKeysWithOutTraffic abcClient failOnB =
      ((false, some (Err.requestFailed (RequestError.statusCode 500))), abcClient,
        [Call.deleteReq "b"]) := by
  have h := deleteAllKeysWithOutTraffic_contract
  constructor
  · have h1 := h.1 abcClient allNoContent [("a", 100)] rfl (by decide)
    have h2 := h.2.1 allNoContent (some [("a", 100)]) abcClient.accessKeysCache
      (fun k _ _ => rfl)
    rw [h1, h2]
    decide
  · have h1 := h.1 abcClient failOnB [("a", 100)] rfl (by decide)
    have hsplit : abcClient.accessKeysCache = [keyA] ++ keyB :: [keyC] := rfl
    have h3 := h.2.2.1 failOnB (some [("a", 100)]) [keyA] keyB [keyC]
      (Err.requestFailed (RequestError.statusCode 500)) (by decide) (by decide) rfl
    rw [h1, hsplit, h3]
    decide

/-- Counterexample to C3 as stated: the access-key cache sentinel is length
zero, so when the list fetch returns an empty list the first call leaves the
cache at the sentinel and the second call fetches again: two list-fetch
calls are issued, not one. -/
theorem getAccessKeyByID_twice_refetch_cex :
    ((GetAccessKeyByID emptyClient emptyListRemote "x").2.2 ++
        (GetAccessKeyByID (GetAccessKeyByID emptyClient emptyListRemote "x").2.1
          emptyListRemote "x").2.2).count Call.listFetch = 2 := by
  decide

/-- Claim C3, amended: for every client whose access-key cache starts empty,
provided the list fetch succeeds and returns a non-empty list, calling
GetAccessKeyByID twice issues exactly one list-fetch call in total: the
first call fetches once and the second call issues no fetch and re-uses the
state populated by the first. -/
theorem getAccessKeyByID_cache_idempotent (c : ClientState) (w : Oracle)
    (id1 id2 : String) (keys : List AccessKey)
    (h0 : c.accessKeysCache = []) (hw : w.listAccessKeys = Except.ok keys)
    (hne : keys ≠ []) :
    (GetAccessKeyByID c w id1).2.2 = [Call.listFetch] ∧
    (GetAccessKeyByID (GetAccessKeyByID c w id1).2.1 w id2).2.2 = [] ∧
    (GetAccessKeyByID (GetAccessKeyByID c w id1).2.1 w id2).2.1 =
      (GetAccessKeyByID c w id1).2.1 ∧
    ((GetAccessKeyByID c w id1).2.2 ++
        (GetAccessKeyByID (GetAccessKeyByID c w id1).2.1 w id2).2.2).count
      Call.listFetch = 1 := by
  have hfirst : GetAccessKeyByID c w id1 =
      ((scanForKey id1 keys, none), { c with accessKeysCache := keys },
        [Call.listFetch]) := by
    simp [GetAccessKeyByID, h0, hw]
  have hlen : ¬ ({ c with accessKeysCache := keys } :
      ClientState).accessKeysCache.length = 0 := by
    simpa [List.length_eq_zero] using hne
  have hsecond : GetAccessKeyByID ({ c with accessKeysCache := keys }) w id2 =
      ((scanForKey id2 keys, none), { c with accessKeysCache := keys }, []) := by
    simp [GetAccessKeyByID, hlen]
  refine ⟨by rw [hfirst], ?_, ?_, ?_⟩
  · rw [hfirst]
    rw [hsecond]
  · rw [hfirst]
    rw [hsecond]
  · rw [hfirst]
    rw [hsecond]
    rfl

/-- Witness for the amended C3: an empty client against a remote holding
three keys; the first call fetches once and the second call issues no
fetch. -/
theorem getAccessKeyByID_cache_idempotent_witness :
    (GetAccessKeyByID emptyClient allNoContent "a").2.2 = [Call.listFetch] ∧
    (GetAccessKeyByID (GetAccessKeyByID emptyClient allNoContent "a").2.1
        allNoContent "a").2.2 = [] := by
  have h := getAccessKeyByID_cache_idempotent emptyClient allNoContent "a" "a"
    [keyA, keyB, keyC] rfl rfl (by decide)
  exact ⟨h.1, h.2.1⟩

/-- Claim C6: on a populated access-key cache, GetAccessKeyByID scans the
cache for the id and, when it is absent, returns the zero-value AccessKey
with a nil error and no fetch: absence is never surfaced as an error. -/
theorem getAccessKeyByID_absent_zero (c : ClientState) (w : Oracle) (id : String)
    (hk : c.accessKeysCache ≠ []) (habs : keyPresent id c.accessKeysCache = false) :
    GetAccessKeyByID c w id = ((zeroAccessKey, none), c, []) := by
  have hlen : ¬ c.accessKeysCache.length = 0 := by
    simpa [List.length_eq_zero] using hk
  simp [GetAccessKeyByID, hlen, scanForKey_eq_zero id _ habs]

/-- Witness for C6 on the cache [{id: a}, {id: b}]: looking up "missing-id"
returns the zero-value key with no error. -/
theorem getAccessKeyByID_absent_zero_witness :
    GetAccessKeyByID abClient allNoContent "missing-id" =
      ((zeroAccessKey, none), abClient, []) :=
  getAccessKeyByID_absent_zero abClient allNoContent "missing-id"
    (by decide) (by decide)

/-- Claim C7: GetNumberOfActiveUsers fetches the transferred-data map only
when the cache is the nil-map sentinel: on a non-nil cache, even an empty
one, it returns the number of entries with no fetch; on the nil sentinel it
issues exactly one fetch, and a successful fetch populates the cache and
the entry count is returned. -/
theorem getNumberOfActiveUsers_contract (c : ClientState) (w : Oracle) :
    (∀ m : TMap, c.transferredDataCache = some m →
        GetNumberOfActiveUsers c w = ((m.length, none), c, [])) ∧
    (c.transferredDataCache = none →
        ((GetNumberOfActiveUsers c w).2.2 = [Call.transferFetch] ∧
         ∀ m, w.dataTransferred = Except.ok m →
           GetNumberOfActiveUsers c w =
             ((tmapLen m, none), { c with transferredDataCache := m },
               [Call.transferFetch]))) := by
  constructor
  · intro m hm
    simp [GetNumberOfActiveUsers, hm]
  · intro hn
    constructor
    · cases hd : w.dataTransferred with
      | error e => simp [GetNumberOfActiveUsers, hn, hd]
      | ok m => simp [GetNumberOfActiveUsers, hn, hd]
    · intro m hd
      simp [GetNumberOfActiveUsers, hn, hd]

/-- Witness for C7: a transferred-data cache that is the empty but non-nil
map gives 0 entries and issues no fetch. -/
theorem getNumberOfActiveUsers_contract_witness :
    GetNumberOfActiveUsers emptyMapClient allNoContent =
      ((0, none), emptyMapClient, []) :=
  (getNumberOfActiveUsers_contract emptyMapClient allNoContent).1 [] rfl

/-- Once the access-key cache is non-empty, DeleteAllKeysWithOutTraffic
leaves it unchanged. -/
theorem deleteAll_preserves_accessKeys (c : ClientState) (w : Oracle)
    (hk : c.accessKeysCache ≠ []) :
    (DeleteAllKeysWithOutTraffic c w).2.1.accessKeysCache = c.accessKeysCache := by
  cases ht : c.transferredDataCache with
  | some m =>
      have hst : DeleteAllKeysWithOutTraffic c w = deleteStageKeys c w := by
        simp [DeleteAllKeysWithOutTraffic, ht]
      rw [hst, deleteStageKeys_state_eq c w hk]
  | none =>
      cases hd : w.dataTransferred with
      | error e => simp [DeleteAllKeysWithOutTraffic, ht, hd]
      | ok m =>
          have hk2 : ({ c with transferredDataCache := m } :
              ClientState).accessKeysCache ≠ [] := hk
          simp [DeleteAllKeysWithOutTraffic, ht, hd,
            deleteStageKeys_state_eq _ w hk2]

/-- Once the transferred-data cache is non-nil, DeleteAllKeysWithOutTraffic
leaves it unchanged. -/
theorem deleteAll_preserves_transferred (c : ClientState) (w : Oracle) (m : TMap)
    (ht : c.transferredDataCache = some m) :
    (DeleteAllKeysWithOutTraffic c w).2.1.transferredDataCache =
      c.transferredDataCache := by
  have hst : DeleteAllKeysWithOutTraffic c w = deleteStageKeys c w := by
    simp [DeleteAllKeysWithOutTraffic, ht]
  rw [hst, deleteStageKeys_preserves_transferred]

/-- Claim C8: each cache makes a one-way Empty-to-Populated transition: once
the access-key cache is non-empty, no operation of the client replaces it,
and once the transferred-data cache is populated (non-nil, in particular
non-empty), no operation replaces it; deleting keys, whether through
DeleteAccessKey or through the deletes of DeleteAllKeysWithOutTraffic,
modifies neither cache. -/
theorem caches_never_cleared (c : ClientState) (w : Oracle) (id : String) :
    (c.accessKeysCache ≠ [] →
        ((GetAccessKeyByID c w id).2.1.accessKeysCache = c.accessKeysCache ∧
         (CheckAccessKeyByID c w id).2.1.accessKeysCache = c.accessKeysCache ∧
         (GetNumberOfUsers c w).2.1.accessKeysCache = c.accessKeysCache ∧
         (GetNumberOfActiveUsers c w).2.1.accessKeysCache = c.accessKeysCache ∧
         (DeleteAllKeysWithOutTraffic c w).2.1.accessKeysCache = c.accessKeysCache ∧
         (DeleteAccessKey c w id).2.1.accessKeysCache = c.accessKeysCache)) ∧
    (∀ m : TMap, c.transferredDataCache = some m →
        ((GetAccessKeyByID c w id).2.1.transferredDataCache = c.transferredDataCache ∧
         (CheckAccessKeyByID c w id).2.1.transferredDataCache = c.transferredDataCache ∧
         (GetNumberOfUsers c w).2.1.transferredDataCache = c.transferredDataCache ∧
         (GetNumberOfActiveUsers c w).2.1.transferredDataCache = c.transferredDataCache ∧
         (DeleteAllKeysWithOutTraffic c w).2.1.transferredDataCache = c.transferredDataCache ∧
         (DeleteAccessKey c w id).2.1.transferredDataCache = c.transferredDataCache)) := by
  constructor
  · intro hk
    have hlen : ¬ c.accessKeysCache.length = 0 := by
      simpa [List.length_eq_zero] using hk
    refine ⟨?_, ?_, ?_, ?_, deleteAll_preserves_accessKeys c w hk, rfl⟩
    · simp [GetAccessKeyByID, hlen]
    · simp [CheckAccessKeyByID, hlen]
    · simp [GetNumberOfUsers, hlen]
    · cases ht : c.transferredDataCache with
      | none =>
          cases hd : w.dataTransferred with
          | error e => simp [GetNumberOfActiveUsers, ht, hd]
          | ok m => simp [GetNumberOfActiveUsers, ht, hd]
      | some m => simp [GetNumberOfActiveUsers, ht]
  · intro m ht
    refine ⟨?_, ?_, ?_, ?_, deleteAll_preserves_transferred c w m ht, rfl⟩ <;>
      by_cases hlen : c.accessKeysCache.length = 0
    · cases hd : w.listAccessKeys with
      | error e => simp [GetAccessKeyByID, hlen, hd]
      | ok keys => simp [GetAccessKeyByID, hlen, hd]
    · simp [GetAccessKeyByID, hlen]
    · cases hd : w.listAccessKeys with
      | error e => simp [CheckAccessKeyByID, hlen, hd]
      | ok keys => simp [CheckAccessKeyByID, hlen, hd]
    · simp [CheckAccessKeyByID, hlen]
    · cases hd : w.listAccessKeys with
      | error e => simp [GetNumberOfUsers, hlen, hd]
      | ok keys => simp [GetNumberOfUsers, hlen, hd]
    · simp [GetNumberOfUsers, hlen]
    · simp [GetNumberOfActiveUsers, ht]
    · simp [GetNumberOfActiveUsers, ht]

/-- Witness for C8: a client with both caches populated; every operation,
including the full no-traffic sweep, leaves both caches as they are. -/
theorem caches_never_cleared_witness :
    (GetAccessKeyByID abcClient allNoContent "a").2.1.accessKeysCache =
      abcClient.accessKeysCache ∧
    (DeleteAllKeysWithOutTraffic abcClient allNoContent).2.1.accessKeysCache =
      abcClient.accessKeysCache ∧
    (DeleteAllKeysWithOutTraffic abcClient allNoContent).2.1.transferredDataCache =
      abcClient.transferredDataCache ∧
    (DeleteAccessKey abcClient allNoContent "a").2.1.transferredDataCache =
      abcClient.transferredDataCache := by
  have h := caches_never_cleared abcClient allNoContent "a"
  have h1 := h.1 (by decide)
  have h2 := h.2 [("a", 100)] rfl
  exact ⟨h1.1, h1.2.2.2.2.1, h2.2.2.2.2.1, h2.2.2.2.2.2⟩

/-- Claim C9: in DeleteAllKeysWithOutTraffic only an error from a delete
call aborts the iteration; when every DELETE of a no-traffic key comes back
with a 2xx status, so that DeleteAccessKey reports no error even when its
boolean result is false (any 2xx other than 204), the loop continues
through the whole list and the method returns (true, nil). -/
theorem deleteAll_ignores_false_results (c : ClientState) (w : Oracle) (m : TMap)
    (ht : c.transferredDataCache = some m) (hk : c.accessKeysCache ≠ [])
    (hall : ∀ id, ∃ resp, w.deleteAttempt id = HttpAttempt.response resp ∧
        200 ≤ resp.statusCode ∧ resp.statusCode < 300) :
    DeleteAllKeysWithOutTraffic c w =
      ((true, none), c, noTrafficCalls (some m) c.accessKeysCache) := by
  have hnone : ∀ x : AccessKey, x ∈ c.accessKeysCache →
      tmapHas (some m) x.id = false →
      (sendDeleteRequest (w.deleteAttempt x.id)).2 = none := by
    intro x _ _
    obtain ⟨resp, hattempt, _h2, h3⟩ := hall x.id
    have h4 : ¬ resp.statusCode ≥ 400 := by omega
    rw [hattempt]
    simp [sendDeleteRequest, MakeRequest, h4]
  have hlen : ¬ c.accessKeysCache.length = 0 := by
    simpa [List.length_eq_zero] using hk
  have hloop := deleteLoop_success w (some m) c.accessKeysCache hnone
  simp [DeleteAllKeysWithOutTraffic, ht, deleteStageKeys, hlen, hloop]

/-- Witness for C9: every DELETE answers 200, so each per-key DeleteAccessKey
result is (false, nil); the sweep over [a, b, c] with mapping {a: 100} still
deletes b and c and returns (true, nil). -/
theorem deleteAll_ignores_false_results_witness :
    sendDeleteRequest (all200.deleteAttempt "b") = (false, none) ∧
    DeleteAllKeysWithOutTraffic abcClient all200 =
      ((true, none), abcClient, [Call.deleteReq "b", Call.deleteReq "c"]) := by
  have h := deleteAll_ignores_false_results abcClient all200 [("a", 100)] rfl
    (by decide) (fun id => ⟨⟨200, ""⟩, rfl, by decide, by decide⟩)
  refine ⟨by decide, ?_⟩
  rw [h]
  decide

/-- No delete for an id present in the transferred-data map is issued by
any path of DeleteAllKeysWithOutTraffic once the map cache holds that id. -/
theorem deleteStageKeys_skips_present (c : ClientState) (w : Oracle) (m : TMap)
    (id : String) (ht : c.transferredDataCache = some m)
    (hhas : tmapHas (some m) id = true) :
    Call.deleteReq id ∉ (deleteStageKeys c w).2.2 := by
  by_cases hlen : c.accessKeysCache.length = 0
  · cases hd : w.listAccessKeys with
    | error e => simp [deleteStageKeys, hlen, hd]
    | ok keys =>
        simp only [deleteStageKeys, hlen, hd, if_pos]
        intro hmem
        rcases List.mem_cons.mp hmem with hcontra | hmem2
        · exact Call.noConfusion hcontra
        · have := deleteLoop_skips_present w
            ({ c with accessKeysCache := keys } : ClientState).transferredDataCache
            id keys (by simpa [ht] using hhas)
          exact this hmem2
  · simp only [deleteStageKeys, hlen, if_neg]
    have := deleteLoop_skips_present w c.transferredDataCache id
      c.accessKeysCache (by simpa [ht] using hhas)
    simpa using this

/-- Claim C10: presence of the id in the transferred-data map, not a
nonzero value, is the criterion for having traffic: an access key whose id
maps to 0 bytes receives no delete call from DeleteAllKeysWithOutTraffic,
and GetNumberOfActiveUsers counts that zero-byte entry. -/
theorem presence_not_value_criterion (c : ClientState) (w : Oracle) (m : TMap)
    (id : String) (ht : c.transferredDataCache = some m)
    (hmem : (id, (0 : Int)) ∈ m) :
    Call.deleteReq id ∉ (DeleteAllKeysWithOutTraffic c w).2.2 ∧
    (GetNumberOfActiveUsers c w).1 = (m.length, none) := by
  have hhas : tmapHas (some m) id = true := by
    simp only [tmapHas, List.any_eq_true]
    exact ⟨(id, 0), hmem, by simp⟩
  constructor
  · have hst : DeleteAllKeysWithOutTraffic c w = deleteStageKeys c w := by
      simp [DeleteAllKeysWithOutTraffic, ht]
    rw [hst]
    exact deleteStageKeys_skips_present c w m id ht hhas
  · simp [GetNumberOfActiveUsers, ht]

/-- Witness for C10: keys [a, b] with mapping {a: 0}; no delete of a is
issued and the zero-byte entry is counted as one active user. -/
theorem presence_not_value_criterion_witness :
    Call.deleteReq "a" ∉ (DeleteAllKeysWithOutTraffic zeroTrafficClient allNoContent).2.2 ∧
    (GetNumberOfActiveUsers zeroTrafficClient allNoContent).1 = (1, none) := by
  have h := presence_not_value_criterion zeroTrafficClient allNoContent
    [("a", 0)] "a" rfl (by decide)
  exact ⟨h.1, h.2⟩
